import Mathlib

/-!
Shallow embedding of the regression-and-selection engine of
`comp-math-lab4` (`src/main.rs`, `src/methods.rs`).

The Rust numeric type `TNumber = f64` is modelled by `ℚ`; the f64
intrinsics `ln`, `exp`, `sqrt` and `powf` have no algorithmic content in
the repository and are passed as abstract function parameters, so every
structural fact proved here holds for the actual floating-point functions
as well.
-/

namespace CompMathLab4

/-- Numeric type of the program (`type TNumber = f64` in `main.rs`). -/
abbrev TNumber := ℚ

/-- `struct Point { x: TNumber, y: TNumber }` from `main.rs`. -/
structure Point where
  x : TNumber
  y : TNumber
deriving DecidableEq, Repr

/-- `const APPROX_ZERO: TNumber = 0.000001;` from `main.rs`. -/
def APPROX_ZERO : TNumber := 1 / 1000000

/-- The per-point zero substitution performed by `start` in `main.rs`:
`Point { x: if x == 0. { APPROX_ZERO } else { x }, y: if y == 0. { APPROX_ZERO } else { y } }`. -/
def substPoint (p : Point) : Point :=
  { x := if p.x = 0 then APPROX_ZERO else p.x
    y := if p.y = 0 then APPROX_ZERO else p.y }

/-- `struct Linear { a, b }` from `methods.rs`. -/
structure Linear where
  a : TNumber
  b : TNumber
deriving DecidableEq, Repr

/-- The fold in `Linear::new_minimized` accumulating `(sx, sxx, sy, sxy)`. -/
def linearSums (points : List Point) : TNumber × TNumber × TNumber × TNumber :=
  points.foldl
    (fun s p => (s.1 + p.x, s.2.1 + p.x ^ 2, s.2.2.1 + p.y, s.2.2.2 + p.x * p.y))
    (0, 0, 0, 0)

/-- `Linear::new_minimized` from `methods.rs` (lines 51-65). -/
def Linear.new_minimized (points : List Point) : Linear :=
  let s := linearSums points
  let sx := s.1
  let sxx := s.2.1
  let sy := s.2.2.1
  let sxy := s.2.2.2
  let n : TNumber := points.length
  { a := (sxy * n - sx * sy) / (sxx * n - sx ^ 2)
    b := (sxx * sy - sx * sxy) / (sxx * n - sx ^ 2) }

/-- `struct Quadratic { a0, a1, a2 }` from `methods.rs`. -/
structure Quadratic where
  a0 : TNumber
  a1 : TNumber
  a2 : TNumber
deriving DecidableEq, Repr

/-- `struct Cubic { a0, a1, a2, a3 }` from `methods.rs`. -/
structure Cubic where
  a0 : TNumber
  a1 : TNumber
  a2 : TNumber
  a3 : TNumber
deriving DecidableEq, Repr

/-- `struct Exponent { a0, a1 }` from `methods.rs`. -/
structure Exponent where
  a0 : TNumber
  a1 : TNumber
deriving DecidableEq, Repr

/-- `struct Logrithm { a0, a1 }` from `methods.rs` (sic: the source spells it so). -/
structure Logrithm where
  a0 : TNumber
  a1 : TNumber
deriving DecidableEq, Repr

/-- `struct Power { a0, a1 }` from `methods.rs`. -/
structure Power where
  a0 : TNumber
  a1 : TNumber
deriving DecidableEq, Repr

/-- `Exponent::new_minimized` from `methods.rs` (lines 197-208): map `y ↦ ln y`,
then run the Linear derivation. `ln` is the abstract model of `f64::ln`. -/
def Exponent.new_minimized (ln : TNumber → TNumber) (points : List Point) : Exponent :=
  let mapped := points.map fun p => Point.mk p.x (ln p.y)
  let l := Linear.new_minimized mapped
  { a0 := l.a, a1 := l.b }

/-- `Logrithm::new_minimized` from `methods.rs` (lines 228-239): map `x ↦ ln x`,
then run the Linear derivation. -/
def Logrithm.new_minimized (ln : TNumber → TNumber) (points : List Point) : Logrithm :=
  let mapped := points.map fun p => Point.mk (ln p.x) p.y
  let l := Linear.new_minimized mapped
  { a0 := l.a, a1 := l.b }

/-- `Power::new_minimized` from `methods.rs` (lines 259-273): map `(x, y) ↦ (ln x, ln y)`,
then run the Linear derivation. -/
def Power.new_minimized (ln : TNumber → TNumber) (points : List Point) : Power :=
  let mapped := points.map fun p => Point.mk (ln p.x) (ln p.y)
  let l := Linear.new_minimized mapped
  { a0 := l.a, a1 := l.b }

/-- A dense 3×3 matrix, written out by entries exactly as `General::<f64>::zero(3, 3)`
indexed `matrix[[i, j]]` is in `Quadratic::new_minimized`. -/
structure Mat3 where
  m00 : TNumber
  m01 : TNumber
  m02 : TNumber
  m10 : TNumber
  m11 : TNumber
  m12 : TNumber
  m20 : TNumber
  m21 : TNumber
  m22 : TNumber
deriving DecidableEq, Repr

/-- A dense length-3 vector (`Vector::<f64>::zero(3)`). -/
structure Vec3 where
  v0 : TNumber
  v1 : TNumber
  v2 : TNumber
deriving DecidableEq, Repr

/-- A dense 4×4 matrix (`General::<f64>::zero(4, 4)` in `Cubic::new_minimized`). -/
structure Mat4 where
  m00 : TNumber
  m01 : TNumber
  m02 : TNumber
  m03 : TNumber
  m10 : TNumber
  m11 : TNumber
  m12 : TNumber
  m13 : TNumber
  m20 : TNumber
  m21 : TNumber
  m22 : TNumber
  m23 : TNumber
  m30 : TNumber
  m31 : TNumber
  m32 : TNumber
  m33 : TNumber
deriving DecidableEq, Repr

/-- A dense length-4 vector (`Vector::<f64>::zero(4)`). -/
structure Vec4 where
  v0 : TNumber
  v1 : TNumber
  v2 : TNumber
  v3 : TNumber
deriving DecidableEq, Repr

/-- Determinant of a 3×3 matrix given by entries (cofactor expansion along the
first row). -/
def det3x3 (a b c d e f g h i : TNumber) : TNumber :=
  a * (e * i - f * h) - b * (d * i - f * g) + c * (d * h - e * g)

/-- Determinant of `Mat3`. -/
def Mat3.det (m : Mat3) : TNumber :=
  det3x3 m.m00 m.m01 m.m02 m.m10 m.m11 m.m12 m.m20 m.m21 m.m22

/-- Determinant of `Mat4` (cofactor expansion along the first row). -/
def Mat4.det (m : Mat4) : TNumber :=
  m.m00 * det3x3 m.m11 m.m12 m.m13 m.m21 m.m22 m.m23 m.m31 m.m32 m.m33
    - m.m01 * det3x3 m.m10 m.m12 m.m13 m.m20 m.m22 m.m23 m.m30 m.m32 m.m33
    + m.m02 * det3x3 m.m10 m.m11 m.m13 m.m20 m.m21 m.m23 m.m30 m.m31 m.m33
    - m.m03 * det3x3 m.m10 m.m11 m.m12 m.m20 m.m21 m.m22 m.m30 m.m31 m.m32

/-- Modelled from the spec: the dense linear solve `matrix.solve(&vector)` used by
`Quadratic::new_minimized` and `Cubic::new_minimized` comes from the external
`mathru` crate, which is not part of this repository. Per the spec (§4.1) the
solver returns the vector solving `A·x = b`, or a failure when `A` is
singular. Over the exact field ℚ this is modelled by the Cramer rule, failing
exactly when `det A = 0`. -/
def Mat3.solve (m : Mat3) (b : Vec3) : Option Vec3 :=
  let d := m.det
  if d = 0 then none
  else some
    { v0 := det3x3 b.v0 m.m01 m.m02 b.v1 m.m11 m.m12 b.v2 m.m21 m.m22 / d
      v1 := det3x3 m.m00 b.v0 m.m02 m.m10 b.v1 m.m12 m.m20 b.v2 m.m22 / d
      v2 := det3x3 m.m00 m.m01 b.v0 m.m10 m.m11 b.v1 m.m20 m.m21 b.v2 / d }

/-- `Mat4` copy of a matrix with column `j` replaced by a vector, used by the
Cramer-rule model of the 4×4 solve. -/
def Mat4.withCol (m : Mat4) (j : Fin 4) (b : Vec4) : Mat4 :=
  match j with
  | 0 => { m with m00 := b.v0, m10 := b.v1, m20 := b.v2, m30 := b.v3 }
  | 1 => { m with m01 := b.v0, m11 := b.v1, m21 := b.v2, m31 := b.v3 }
  | 2 => { m with m02 := b.v0, m12 := b.v1, m22 := b.v2, m32 := b.v3 }
  | 3 => { m with m03 := b.v0, m13 := b.v1, m23 := b.v2, m33 := b.v3 }

/-- Modelled from the spec: the 4×4 instance of the external `mathru` solve,
same contract as `Mat3.solve` (spec §4.1): solution of `A·x = b`, or a failure
exactly when `A` is singular. -/
def Mat4.solve (m : Mat4) (b : Vec4) : Option Vec4 :=
  let d := m.det
  if d = 0 then none
  else some
    { v0 := (m.withCol 0 b).det / d
      v1 := (m.withCol 1 b).det / d
      v2 := (m.withCol 2 b).det / d
      v3 := (m.withCol 3 b).det / d }

/-- The fold in `Quadratic::new_minimized` (lines 91-105 of `methods.rs`)
building the 3×3 normal-equations matrix and right-hand side. -/
def quadSystem (points : List Point) : Mat3 × Vec3 :=
  points.foldl
    (fun s p =>
      ({ m00 := s.1.m00 + 1, m01 := s.1.m01 + p.x, m02 := s.1.m02 + p.x ^ 2
         m10 := s.1.m10 + p.x, m11 := s.1.m11 + p.x ^ 2, m12 := s.1.m12 + p.x ^ 3
         m20 := s.1.m20 + p.x ^ 2, m21 := s.1.m21 + p.x ^ 3, m22 := s.1.m22 + p.x ^ 4 },
       { v0 := s.2.v0 + p.y, v1 := s.2.v1 + p.x * p.y, v2 := s.2.v2 + p.x * p.x * p.y }))
    (⟨0, 0, 0, 0, 0, 0, 0, 0, 0⟩, ⟨0, 0, 0⟩)

/-- `Quadratic::new_minimized` from `methods.rs` (lines 86-114). The Rust code
calls `.unwrap()` on the solver result, aborting the run on failure; the abort
is modelled by `none`. -/
def Quadratic.new_minimized (points : List Point) : Option Quadratic :=
  let s := quadSystem points
  (s.1.solve s.2).map fun c => { a0 := c.v0, a1 := c.v1, a2 := c.v2 }

/-- The fold in `Cubic::new_minimized` (lines 145-167 of `methods.rs`)
building the 4×4 normal-equations matrix and right-hand side. -/
def cubicSystem (points : List Point) : Mat4 × Vec4 :=
  points.foldl
    (fun s p =>
      ({ m00 := s.1.m00 + 1, m01 := s.1.m01 + p.x, m02 := s.1.m02 + p.x ^ 2
         m03 := s.1.m03 + p.x ^ 3
         m10 := s.1.m10 + p.x, m11 := s.1.m11 + p.x ^ 2, m12 := s.1.m12 + p.x ^ 3
         m13 := s.1.m13 + p.x ^ 4
         m20 := s.1.m20 + p.x ^ 2, m21 := s.1.m21 + p.x ^ 3, m22 := s.1.m22 + p.x ^ 4
         m23 := s.1.m23 + p.x ^ 5
         m30 := s.1.m30 + p.x ^ 3, m31 := s.1.m31 + p.x ^ 4, m32 := s.1.m32 + p.x ^ 5
         m33 := s.1.m33 + p.x ^ 6 },
       { v0 := s.2.v0 + p.y, v1 := s.2.v1 + p.x * p.y, v2 := s.2.v2 + p.x ^ 2 * p.y
         v3 := s.2.v3 + p.x ^ 3 * p.y }))
    (⟨0, 0, 0, 0, 0, 0, 0, 0, 0, 0, 0, 0, 0, 0, 0, 0⟩, ⟨0, 0, 0, 0⟩)

/-- `Cubic::new_minimized` from `methods.rs` (lines 140-177); `.unwrap()` on a
solver failure is modelled by `none`. -/
def Cubic.new_minimized (points : List Point) : Option Cubic :=
  let s := cubicSystem points
  (s.1.solve s.2).map fun c => { a0 := c.v0, a1 := c.v1, a2 := c.v2, a3 := c.v3 }

/-- The closed sum of the six model families, replacing the six
`Box<dyn Function>` trait objects of `create_approximations`. -/
inductive FittedModel where
  | linear (a b : TNumber)
  | quadratic (a0 a1 a2 : TNumber)
  | cubic (a0 a1 a2 a3 : TNumber)
  | exponent (a0 a1 : TNumber)
  | logrithm (a0 a1 : TNumber)
  | power (a0 a1 : TNumber)
deriving DecidableEq, Repr

/-- The six `Function::compute` implementations of `methods.rs`, dispatched over
the family tag. `ln`, `exp` model the f64 intrinsics; `powf x e` models
`x.powf(e)`. -/
def FittedModel.compute (ln exp : TNumber → TNumber) (powf : TNumber → TNumber → TNumber) :
    FittedModel → TNumber → TNumber
  | .linear a b, x => a * x + b
  | .quadratic a0 a1 a2, x => a0 + a1 * x + a2 * x ^ 2
  | .cubic a0 a1 a2 a3, x => a0 + a1 * x + a2 * x ^ 2 + a3 * x ^ 3
  | .exponent a0 a1, x => exp (a0 * x + a1)
  | .logrithm a0 a1, x => a0 * ln x + a1
  | .power a0 a1, x => exp a0 * powf x a1

/-- `create_approximations` from `methods.rs` (lines 18-27): one fit per family,
in the fixed source order. A solver failure inside Quadratic or Cubic aborts the
whole construction (the Rust `.unwrap()` panic), modelled by `none`. -/
def create_approximations (ln : TNumber → TNumber) (points : List Point) :
    Option (List FittedModel) := do
  let lin := Linear.new_minimized points
  let quad ← Quadratic.new_minimized points
  let cub ← Cubic.new_minimized points
  let ex := Exponent.new_minimized ln points
  let lg := Logrithm.new_minimized ln points
  let pw := Power.new_minimized ln points
  pure [FittedModel.linear lin.a lin.b,
    FittedModel.quadratic quad.a0 quad.a1 quad.a2,
    FittedModel.cubic cub.a0 cub.a1 cub.a2 cub.a3,
    FittedModel.exponent ex.a0 ex.a1,
    FittedModel.logrithm lg.a0 lg.a1,
    FittedModel.power pw.a0 pw.a1]

/-- `compute_deviation` from `main.rs` (lines 81-93): for each point the record
`(point, φ(x), ε)` with `ε = φ(x) − y`. -/
def compute_deviation (points : List Point) (f : TNumber → TNumber) :
    List (Point × TNumber × TNumber) :=
  points.map fun p => (p, f p.x, f p.x - p.y)

/-- `Iterator::min_by` of Rust: fold keeping the accumulator unless the next
element compares strictly less, so the first minimal element wins. Returns
`none` on an empty iterator. -/
def min_by (cmp : α → α → Ordering) : List α → Option α
  | [] => none
  | x :: xs => some (xs.foldl (fun acc y => if cmp acc y = Ordering.gt then y else acc) x)

/-- The `start` pipeline of `main.rs` (lines 33-76), without the I/O:
zero substitution, the six fits, per-model residual records, per-model
standard deviations, and the `min_by(total_cmp)` selection. Returns the
selected index, its score, its model and its residual records, the data the
program prints. `none` models the aborts (`?`, `unwrap`, `expect`). -/
def start (ln exp sqrt : TNumber → TNumber) (powf : TNumber → TNumber → TNumber)
    (input : List Point) :
    Option (ℕ × TNumber × FittedModel × List (Point × TNumber × TNumber)) := do
  let points := input.map substPoint
  let all ← create_approximations ln points
  let approximated := all.map fun f => compute_deviation points (f.compute ln exp powf)
  let sds := (approximated.map fun devs => (devs.map fun t => t.2.2 ^ 2).sum).map
    fun s => sqrt (s / (points.length : TNumber))
  let best ← min_by (fun a b => compare a.2.1 b.2.1) (sds.zip all).enum
  let records ← approximated[best.1]?
  pure (best.1, best.2.1, best.2.2, records)

/-! ### Helper lemmas -/

/-- The fold of `Linear::new_minimized` computes the four sums `Σx, Σx², Σy, Σxy`. -/
lemma linearSums_foldl (ps : List Point) : ∀ a b c d : TNumber,
    ps.foldl
        (fun s p => (s.1 + p.x, s.2.1 + p.x ^ 2, s.2.2.1 + p.y, s.2.2.2 + p.x * p.y))
        (a, b, c, d)
      = (a + (ps.map fun p => p.x).sum, b + (ps.map fun p => p.x ^ 2).sum,
         c + (ps.map fun p => p.y).sum, d + (ps.map fun p => p.x * p.y).sum) := by
  induction ps with
  | nil => intro a b c d; simp
  | cons p ps ih =>
    intro a b c d
    simp only [List.foldl_cons, List.map_cons, List.sum_cons, ih]
    simp only [Prod.mk.injEq]
    refine ⟨by ring, by ring, by ring, by ring⟩

/-- `linearSums` written with list sums. -/
lemma linearSums_eq (ps : List Point) :
    linearSums ps
      = ((ps.map fun p => p.x).sum, (ps.map fun p => p.x ^ 2).sum,
         (ps.map fun p => p.y).sum, (ps.map fun p => p.x * p.y).sum) := by
  simpa using linearSums_foldl ps 0 0 0 0

/-- The fold inside `min_by` returns the first element of `x :: xs` whose key is
minimal: it is a lower bound, and every earlier element is strictly larger. -/
lemma min_by_fold_spec {β γ : Type} [LinearOrder γ] (key : β → γ) (xs : List β) :
    ∀ x : β, ∃ (i : ℕ) (r : β),
      xs.foldl (fun acc y => if compare (key acc) (key y) = Ordering.gt then y else acc) x = r
      ∧ (x :: xs)[i]? = some r
      ∧ (∀ (j : ℕ) (b : β), (x :: xs)[j]? = some b → key r ≤ key b)
      ∧ (∀ (j : ℕ) (b : β), (x :: xs)[j]? = some b → j < i → key r < key b) := by
  induction xs with
  | nil =>
    intro x
    refine ⟨0, x, rfl, rfl, ?_, ?_⟩
    · intro j b hb
      match j with
      | 0 => simp at hb; simp [hb]
      | j + 1 => simp at hb
    · intro j b hb hj
      omega
  | cons y ys ih =>
    intro x
    by_cases hcmp : compare (key x) (key y) = Ordering.gt
    · have hxy : key y < key x := compare_gt_iff_gt.mp hcmp
      obtain ⟨i, r, hfold, hget, hmin, hfirst⟩ := ih y
      have hry : key r ≤ key y := hmin 0 y (by simp)
      refine ⟨i + 1, r, ?_, by simpa using hget, ?_, ?_⟩
      · simpa [hcmp] using hfold
      · intro j b hb
        match j with
        | 0 =>
          simp at hb
          exact hb ▸ le_of_lt (lt_of_le_of_lt hry hxy)
        | j + 1 => exact hmin j b (by simpa using hb)
      · intro j b hb hj
        match j with
        | 0 =>
          simp at hb
          exact hb ▸ lt_of_le_of_lt hry hxy
        | j + 1 => exact hfirst j b (by simpa using hb) (by omega)
    · have hxy : key x ≤ key y := le_of_not_lt fun h => hcmp (compare_gt_iff_gt.mpr h)
      obtain ⟨i, r, hfold, hget, hmin, hfirst⟩ := ih x
      have hfold2 :
          ys.foldl (fun acc z => if compare (key acc) (key z) = Ordering.gt then z else acc)
              (if compare (key x) (key y) = Ordering.gt then y else x) = r := by
        simpa [hcmp] using hfold
      have hrx : key r ≤ key x := by
        refine hmin 0 x (by simp)
      match i, hget with
      | 0, hget =>
        have hr : r = x := by
          have := hget
          simp at this
          exact this.symm
        refine ⟨0, r, hfold2, by simp [hr], ?_, ?_⟩
        · intro j b hb
          match j with
          | 0 => simp at hb; simp [hb, hr]
          | 1 =>
            simp at hb
            exact hb ▸ (hr ▸ hxy)
          | j + 2 => exact hmin (j + 1) b (by simpa using hb)
        · intro j b hb hj
          omega
      | i' + 1, hget =>
        refine ⟨i' + 2, r, hfold2, by simpa using hget, ?_, ?_⟩
        · intro j b hb
          match j with
          | 0 => simp at hb; exact hb ▸ hrx
          | 1 => simp at hb; exact hb ▸ le_trans hrx hxy
          | j + 2 => exact hmin (j + 1) b (by simpa using hb)
        · intro j b hb hj
          have hrltx : key r < key x := hfirst 0 x (by simp) (by omega)
          match j with
          | 0 => simp at hb; exact hb ▸ hrltx
          | 1 => simp at hb; exact hb ▸ lt_of_lt_of_le hrltx hxy
          | j + 2 => exact hfirst (j + 1) b (by simpa using hb) (by omega)

/-- Specification of `min_by` with a key-based comparator on a non-empty list:
it returns the first element with minimal key. -/
lemma min_by_spec {β γ : Type} [LinearOrder γ] (key : β → γ) (l : List β) (hne : l ≠ []) :
    ∃ (i : ℕ) (r : β),
      min_by (fun a b => compare (key a) (key b)) l = some r
      ∧ l[i]? = some r
      ∧ (∀ (j : ℕ) (b : β), l[j]? = some b → key r ≤ key b)
      ∧ (∀ (j : ℕ) (b : β), l[j]? = some b → j < i → key r < key b) := by
  obtain ⟨x, xs, rfl⟩ := List.exists_cons_of_ne_nil hne
  obtain ⟨i, r, hfold, hget, hmin, hfirst⟩ := min_by_fold_spec key xs x
  exact ⟨i, r, by simpa [min_by] using hfold, hget, hmin, hfirst⟩

/-- Inversion for `min_by`: a returned element sits in the list, its key is a
lower bound, and every element before it has a strictly larger key. -/
lemma min_by_eq_some {β γ : Type} [LinearOrder γ] (key : β → γ) (l : List β) (r : β)
    (h : min_by (fun a b => compare (key a) (key b)) l = some r) :
    ∃ i : ℕ, l[i]? = some r
      ∧ (∀ (j : ℕ) (b : β), l[j]? = some b → key r ≤ key b)
      ∧ ∀ (j : ℕ) (b : β), l[j]? = some b → j < i → key r < key b := by
  have hne : l ≠ [] := by
    intro he
    subst he
    simp [min_by] at h
  obtain ⟨i, r', hmb, hget, hmin, hfirst⟩ := min_by_spec key l hne
  rw [hmb] at h
  simp only [Option.some.injEq] at h
  subst h
  exact ⟨i, hget, hmin, hfirst⟩

/-- Unfolding of a successful `create_approximations`: the six families appear
in the fixed source order with their derived coefficients. -/
lemma create_approximations_some (ln : TNumber → TNumber) (points : List Point)
    (models : List FittedModel) (h : create_approximations ln points = some models) :
    ∃ q c, Quadratic.new_minimized points = some q ∧ Cubic.new_minimized points = some c
      ∧ models
        = [FittedModel.linear (Linear.new_minimized points).a (Linear.new_minimized points).b,
           FittedModel.quadratic q.a0 q.a1 q.a2,
           FittedModel.cubic c.a0 c.a1 c.a2 c.a3,
           FittedModel.exponent (Exponent.new_minimized ln points).a0
             (Exponent.new_minimized ln points).a1,
           FittedModel.logrithm (Logrithm.new_minimized ln points).a0
             (Logrithm.new_minimized ln points).a1,
           FittedModel.power (Power.new_minimized ln points).a0
             (Power.new_minimized ln points).a1] := by
  cases hq : Quadratic.new_minimized points with
  | none => rw [create_approximations, hq] at h; simp at h
  | some q =>
    cases hc : Cubic.new_minimized points with
    | none => rw [create_approximations, hq, hc] at h; simp at h
    | some c =>
      rw [create_approximations, hq, hc] at h
      simp only [Option.bind_eq_bind, Option.some_bind, Option.pure_def,
        Option.some.injEq] at h
      exact ⟨q, c, rfl, rfl, h.symm⟩

/-! ### Claim theorems -/

/-- C1: for every non-empty point set, the Linear derivation returns
`a = (Sxy·Sn − Sx·Sy)/(Sxx·Sn − Sx²)` and `b = (Sxx·Sy − Sx·Sxy)/(Sxx·Sn − Sx²)`
with `Sx = Σx`, `Sxx = Σx²`, `Sy = Σy`, `Sxy = Σxy`, `Sn = N`, and the fitted
linear model evaluates as `φ(x) = a·x + b`. -/
theorem linear_closed_form_regression (points : List Point) (h : points ≠ []) :
    (Linear.new_minimized points).a
        = ((points.map fun p => p.x * p.y).sum * (points.length : TNumber)
            - (points.map fun p => p.x).sum * (points.map fun p => p.y).sum)
          / ((points.map fun p => p.x ^ 2).sum * (points.length : TNumber)
            - (points.map fun p => p.x).sum ^ 2)
    ∧ (Linear.new_minimized points).b
        = ((points.map fun p => p.x ^ 2).sum * (points.map fun p => p.y).sum
            - (points.map fun p => p.x).sum * (points.map fun p => p.x * p.y).sum)
          / ((points.map fun p => p.x ^ 2).sum * (points.length : TNumber)
            - (points.map fun p => p.x).sum ^ 2)
    ∧ ∀ (ln exp : TNumber → TNumber) (powf : TNumber → TNumber → TNumber) (a b x : TNumber),
        FittedModel.compute ln exp powf (FittedModel.linear a b) x = a * x + b := by
  refine ⟨?_, ?_, fun ln exp powf a b x => rfl⟩ <;>
    simp [Linear.new_minimized, linearSums_eq]

/-- Witness for C1 at the two points (1,2), (2,3): the fitted line is y = x + 1. -/
theorem linear_closed_form_regression_witness :
    ([Point.mk 1 2, Point.mk 2 3] : List Point) ≠ []
    ∧ (Linear.new_minimized [Point.mk 1 2, Point.mk 2 3]).a = 1
    ∧ (Linear.new_minimized [Point.mk 1 2, Point.mk 2 3]).b = 1 := by
  refine ⟨by decide, ?_, ?_⟩
  · have := (linear_closed_form_regression [Point.mk 1 2, Point.mk 2 3] (by decide)).1
    rw [this]; norm_num
  · have := (linear_closed_form_regression [Point.mk 1 2, Point.mk 2 3] (by decide)).2.1
    rw [this]; norm_num

/-- C2: for every fitted model and non-empty point set, the residual of a point
is `ε = φ(x) − y` and the deviation score is `sqrt((Σε²)/N)` with `N` (not
`N − 1`) as divisor; the scored expression of `start` equals the population
root-mean-square formula. -/
theorem deviation_score_population_rms (sqrtf : TNumber → TNumber) (points : List Point)
    (f : TNumber → TNumber) (h : points ≠ []) :
    sqrtf (((compute_deviation points f).map fun t => t.2.2 ^ 2).sum / (points.length : TNumber))
      = sqrtf ((points.map fun p => (f p.x - p.y) ^ 2).sum / (points.length : TNumber))
    ∧ ((compute_deviation points f).map fun t => t.2.2) = (points.map fun p => f p.x - p.y)
    ∧ ((compute_deviation points f).map fun t => t.2.1) = (points.map fun p => f p.x) := by
  refine ⟨?_, ?_, ?_⟩ <;> simp [compute_deviation, List.map_map, Function.comp_def]

/-- Witness for C2 at one point (1,2) with `f = id` and `sqrt = id`: the single
residual is `1 − 2 = −1` and the score expression evaluates to `1`. -/
theorem deviation_score_population_rms_witness :
    ([Point.mk 1 2] : List Point) ≠ []
    ∧ (((compute_deviation [Point.mk 1 2] id).map fun t => t.2.2 ^ 2).sum
          / (([Point.mk 1 2] : List Point).length : TNumber)) = 1
    ∧ ((compute_deviation [Point.mk 1 2] id).map fun t => t.2.2) = [-1] := by
  refine ⟨by decide, by norm_num [compute_deviation], ?_⟩
  have := (deviation_score_population_rms id [Point.mk 1 2] id (by decide)).2.1
  rw [this]; norm_num

/-- C4: the Exponential, Logarithmic and Power derivations produce exactly the
`(a, b)` pair of the Linear derivation applied to the transformed point set —
`(x, ln y)`, `(ln x, y)` and `(ln x, ln y)` respectively — and the resulting
first coefficient obeys the linear-regression formula over the transformed
sums. -/
theorem transformed_families_reuse_linear (ln : TNumber → TNumber) (points : List Point) :
    Exponent.new_minimized ln points
        = ⟨(Linear.new_minimized (points.map fun p => Point.mk p.x (ln p.y))).a,
           (Linear.new_minimized (points.map fun p => Point.mk p.x (ln p.y))).b⟩
    ∧ Logrithm.new_minimized ln points
        = ⟨(Linear.new_minimized (points.map fun p => Point.mk (ln p.x) p.y)).a,
           (Linear.new_minimized (points.map fun p => Point.mk (ln p.x) p.y)).b⟩
    ∧ Power.new_minimized ln points
        = ⟨(Linear.new_minimized (points.map fun p => Point.mk (ln p.x) (ln p.y))).a,
           (Linear.new_minimized (points.map fun p => Point.mk (ln p.x) (ln p.y))).b⟩
    ∧ (Exponent.new_minimized ln points).a0
        = ((points.map fun p => p.x * ln p.y).sum * (points.length : TNumber)
            - (points.map fun p => p.x).sum * (points.map fun p => ln p.y).sum)
          / ((points.map fun p => p.x ^ 2).sum * (points.length : TNumber)
            - (points.map fun p => p.x).sum ^ 2) := by
  refine ⟨rfl, rfl, rfl, ?_⟩
  simp [Exponent.new_minimized, Linear.new_minimized, linearSums_eq, List.map_map,
    Function.comp_def]

/-- C7: a singular normal-equations matrix makes the Quadratic and Cubic fits
fail (the solver failure propagates; no default coefficients appear). -/
theorem singular_normal_equations_fail (points : List Point) :
    ((quadSystem points).1.det = 0 → Quadratic.new_minimized points = none)
    ∧ ((cubicSystem points).1.det = 0 → Cubic.new_minimized points = none) := by
  constructor
  · intro h
    simp [Quadratic.new_minimized, Mat3.solve, h]
  · intro h
    simp [Cubic.new_minimized, Mat4.solve, h]

/-- Witness for C7: two points sharing x = 2 (a degenerate set from the spec)
make both polynomial fits fail. -/
theorem singular_normal_equations_fail_witness :
    Quadratic.new_minimized [Point.mk 2 3, Point.mk 2 5] = none
    ∧ Cubic.new_minimized [Point.mk 2 3, Point.mk 2 5] = none :=
  ⟨(singular_normal_equations_fail [Point.mk 2 3, Point.mk 2 5]).1
      (by norm_num [quadSystem, Mat3.det, det3x3]),
   (singular_normal_equations_fail [Point.mk 2 3, Point.mk 2 5]).2
      (by norm_num [cubicSystem, Mat4.det, det3x3])⟩

/-- C8 evidence: the evaluator is a total function with no failure channel —
every point unconditionally yields a residual record, so nothing is ever
propagated as a failure between evaluation and selection. -/
theorem evaluator_total_no_failure (points : List Point) (f : TNumber → TNumber) :
    (compute_deviation points f).length = points.length
    ∧ ∀ j : ℕ, (compute_deviation points f)[j]?
        = (points[j]?).map fun p => (p, f p.x, f p.x - p.y) := by
  refine ⟨by simp [compute_deviation], fun j => ?_⟩
  simp [compute_deviation]

/-- C10: a point with both coordinates nonzero passes the zero substitution
unchanged, and (its possibly negative raw coordinates included) lands as-is in
the log-transformed list on which the Exponential derivation runs Linear. -/
theorem nonzero_points_pass_unchanged (p : Point) (hx : p.x ≠ 0) (hy : p.y ≠ 0) :
    substPoint p = p
    ∧ (∀ (ln : TNumber → TNumber) (input : List Point), p ∈ input →
        Point.mk p.x (ln p.y) ∈ (input.map substPoint).map fun q => Point.mk q.x (ln q.y))
    ∧ ∀ (ln : TNumber → TNumber) (canonical : List Point),
        Exponent.new_minimized ln canonical
          = ⟨(Linear.new_minimized (canonical.map fun q => Point.mk q.x (ln q.y))).a,
             (Linear.new_minimized (canonical.map fun q => Point.mk q.x (ln q.y))).b⟩ := by
  have hsub : substPoint p = p := by
    simp [substPoint, hx, hy]
  refine ⟨hsub, ?_, fun ln canonical => rfl⟩
  intro ln input hp
  have h1 : p ∈ input.map substPoint := by
    have h2 := List.mem_map_of_mem substPoint hp
    rwa [hsub] at h2
  exact List.mem_map_of_mem _ h1

/-- Witness for C10 at the point (−1, −2): strictly negative coordinates are
kept as-is. -/
theorem nonzero_points_pass_unchanged_witness :
    substPoint (Point.mk (-1) (-2)) = Point.mk (-1) (-2)
    ∧ (∀ (ln : TNumber → TNumber) (input : List Point), Point.mk (-1) (-2) ∈ input →
        Point.mk (-1) (ln (-2)) ∈ (input.map substPoint).map fun q => Point.mk q.x (ln q.y))
    ∧ ∀ (ln : TNumber → TNumber) (canonical : List Point),
        Exponent.new_minimized ln canonical
          = ⟨(Linear.new_minimized (canonical.map fun q => Point.mk q.x (ln q.y))).a,
             (Linear.new_minimized (canonical.map fun q => Point.mk q.x (ln q.y))).b⟩ :=
  nonzero_points_pass_unchanged (Point.mk (-1) (-2)) (by decide) (by decide)

/-- C6: whenever the fitter succeeds it produces exactly six fitted models, one
per family, in the fixed order Linear, Quadratic, Cubic, Exponential,
Logarithmic, Power. -/
theorem fitter_six_models_fixed_order (ln : TNumber → TNumber) (points : List Point)
    (models : List FittedModel) (h : create_approximations ln points = some models) :
    models.length = 6
    ∧ ∃ q c, Quadratic.new_minimized points = some q ∧ Cubic.new_minimized points = some c
        ∧ models
          = [FittedModel.linear (Linear.new_minimized points).a (Linear.new_minimized points).b,
             FittedModel.quadratic q.a0 q.a1 q.a2,
             FittedModel.cubic c.a0 c.a1 c.a2 c.a3,
             FittedModel.exponent (Exponent.new_minimized ln points).a0
               (Exponent.new_minimized ln points).a1,
             FittedModel.logrithm (Logrithm.new_minimized ln points).a0
               (Logrithm.new_minimized ln points).a1,
             FittedModel.power (Power.new_minimized ln points).a0
               (Power.new_minimized ln points).a1] := by
  obtain ⟨q, c, hq, hc, hm⟩ := create_approximations_some ln points models h
  exact ⟨by rw [hm]; rfl, q, c, hq, hc, hm⟩

/-- Witness for C6 at the points (1,1), (2,4), (3,9), (4,16) with `ln = id`:
the six fits come out in family order. -/
theorem fitter_six_models_fixed_order_witness :
    create_approximations id [Point.mk 1 1, Point.mk 2 4, Point.mk 3 9, Point.mk 4 16]
      = some [FittedModel.linear 5 (-5), FittedModel.quadratic 0 0 1,
          FittedModel.cubic 0 0 1 0, FittedModel.exponent 5 (-5),
          FittedModel.logrithm 5 (-5), FittedModel.power 5 (-5)]
    ∧ ([FittedModel.linear 5 (-5), FittedModel.quadratic 0 0 1,
          FittedModel.cubic 0 0 1 0, FittedModel.exponent 5 (-5),
          FittedModel.logrithm 5 (-5), FittedModel.power 5 (-5)] : List FittedModel).length
        = 6 := by
  have hca : create_approximations id [Point.mk 1 1, Point.mk 2 4, Point.mk 3 9, Point.mk 4 16]
      = some [FittedModel.linear 5 (-5), FittedModel.quadratic 0 0 1,
          FittedModel.cubic 0 0 1 0, FittedModel.exponent 5 (-5),
          FittedModel.logrithm 5 (-5), FittedModel.power 5 (-5)] := by
    norm_num [create_approximations, Linear.new_minimized, linearSums,
      Quadratic.new_minimized, quadSystem, Mat3.solve, Mat3.det, det3x3,
      Cubic.new_minimized, cubicSystem, Mat4.solve, Mat4.det, Mat4.withCol,
      Exponent.new_minimized, Logrithm.new_minimized, Power.new_minimized]
  exact ⟨hca,
    (fitter_six_models_fixed_order id [Point.mk 1 1, Point.mk 2 4, Point.mk 3 9, Point.mk 4 16]
      [FittedModel.linear 5 (-5), FittedModel.quadratic 0 0 1,
        FittedModel.cubic 0 0 1 0, FittedModel.exponent 5 (-5),
        FittedModel.logrithm 5 (-5), FittedModel.power 5 (-5)] hca).1⟩

/-- C9 evidence: on the single point (1, 1) the quadratic and cubic systems are
singular and those two fits fail; the Linear denominator `Sxx·N − Sx²` is zero
yet `Linear::new_minimized` is total and does not fail; and the whole `start`
run aborts, so no model family produces any deviation score at all. -/
theorem single_point_run_aborts (ln exp sqrt : TNumber → TNumber)
    (powf : TNumber → TNumber → TNumber) :
    Quadratic.new_minimized [Point.mk 1 1] = none
    ∧ Cubic.new_minimized [Point.mk 1 1] = none
    ∧ (quadSystem [Point.mk 1 1]).1.det = 0
    ∧ (linearSums [Point.mk 1 1]).2.1 * (([Point.mk 1 1] : List Point).length : TNumber)
        - (linearSums [Point.mk 1 1]).1 ^ 2 = 0
    ∧ Linear.new_minimized [Point.mk 1 1]
        = { a := 0 / 0, b := 0 / 0 }
    ∧ start ln exp sqrt powf [Point.mk 1 1] = none := by
  have hq : Quadratic.new_minimized [Point.mk 1 1] = none := by
    norm_num [Quadratic.new_minimized, quadSystem, Mat3.solve, Mat3.det, det3x3]
  have hsub : List.map substPoint [Point.mk 1 1] = [Point.mk 1 1] := by
    norm_num [substPoint]
  refine ⟨hq, ?_, ?_, ?_, ?_, ?_⟩
  · norm_num [Cubic.new_minimized, cubicSystem, Mat4.solve, Mat4.det, det3x3]
  · norm_num [quadSystem, Mat3.det, det3x3]
  · norm_num [linearSums]
  · norm_num [Linear.new_minimized, linearSums]
  · simp [start, hsub, create_approximations, hq]

/-- C3: on every non-empty list of scored models, the selection step of `start`
(`min_by` over the enumerated score/model list with a total comparison of
scores) returns an entry whose score is minimal, and among equal minimal
scores the one with the smallest index — the earliest in the fixed family
order of the list. -/
theorem selector_min_score_first_family (pairs : List (TNumber × FittedModel))
    (h : pairs ≠ []) :
    ∃ (i : ℕ) (s : TNumber) (m : FittedModel),
      min_by (fun a b => compare a.2.1 b.2.1) pairs.enum = some (i, s, m)
      ∧ pairs[i]? = some (s, m)
      ∧ (∀ (j : ℕ) (p : TNumber × FittedModel), pairs[j]? = some p → s ≤ p.1)
      ∧ ∀ (j : ℕ) (p : TNumber × FittedModel), pairs[j]? = some p → j < i → s < p.1 := by
  have hne : pairs.enum ≠ [] := by simpa using h
  obtain ⟨i, r, hmb, hget, hmin, hfirst⟩ :=
    min_by_spec (fun e : ℕ × TNumber × FittedModel => e.2.1) pairs.enum hne
  rw [List.getElem?_enum] at hget
  cases hp : pairs[i]? with
  | none => rw [hp] at hget; simp at hget
  | some p =>
    rw [hp] at hget
    simp only [Option.map_some', Option.some.injEq] at hget
    refine ⟨i, p.1, p.2, ?_, by simpa using hp, ?_, ?_⟩
    · rw [hmb, ← hget]
    · intro j q hq
      have hjq : pairs.enum[j]? = some (j, q) := by
        rw [List.getElem?_enum, hq]; rfl
      have := hmin j (j, q) hjq
      rw [← hget] at this
      simpa using this
    · intro j q hq hj
      have hjq : pairs.enum[j]? = some (j, q) := by
        rw [List.getElem?_enum, hq]; rfl
      have := hfirst j (j, q) hjq hj
      rw [← hget] at this
      simpa using this

/-- Witness for C3 on two models with equal score 1: the selector picks the
first one (index 0, the Linear entry). -/
theorem selector_min_score_first_family_witness :
    min_by (fun a b => compare a.2.1 b.2.1)
        ([(1, FittedModel.linear 0 0),
          (1, FittedModel.quadratic 0 0 0)] : List (TNumber × FittedModel)).enum
      = some (0, 1, FittedModel.linear 0 0)
    ∧ ∃ (i : ℕ) (s : TNumber) (m : FittedModel),
        min_by (fun a b => compare a.2.1 b.2.1)
            ([(1, FittedModel.linear 0 0),
              (1, FittedModel.quadratic 0 0 0)] : List (TNumber × FittedModel)).enum
          = some (i, s, m)
        ∧ ([(1, FittedModel.linear 0 0),
            (1, FittedModel.quadratic 0 0 0)] : List (TNumber × FittedModel))[i]?
            = some (s, m)
        ∧ (∀ (j : ℕ) (p : TNumber × FittedModel),
            ([(1, FittedModel.linear 0 0),
              (1, FittedModel.quadratic 0 0 0)] : List (TNumber × FittedModel))[j]? = some p
              → s ≤ p.1)
        ∧ ∀ (j : ℕ) (p : TNumber × FittedModel),
            ([(1, FittedModel.linear 0 0),
              (1, FittedModel.quadratic 0 0 0)] : List (TNumber × FittedModel))[j]? = some p
              → j < i → s < p.1 :=
  ⟨by norm_num [min_by, List.enum_cons, List.enumFrom, compare_gt_iff_gt],
   selector_min_score_first_family
     [(1, FittedModel.linear 0 0), (1, FittedModel.quadratic 0 0 0)] (by simp)⟩

/-- C5: the zero substitution (`x = 0 ↦ 1e-6`, `y = 0 ↦ 1e-6`) is applied once,
up front, and the resulting canonical point set is the one given to all six
model fits and to the residual computation: every residual record of the
selected model shows the substituted point, not the raw input point. -/
theorem zero_substitution_canonical_once
    (ln exp sqrt : TNumber → TNumber) (powf : TNumber → TNumber → TNumber)
    (input : List Point) (i : ℕ) (s : TNumber) (m : FittedModel)
    (records : List (Point × TNumber × TNumber))
    (h : start ln exp sqrt powf input = some (i, s, m, records)) :
    (∀ p : Point, substPoint p
        = ⟨if p.x = 0 then APPROX_ZERO else p.x, if p.y = 0 then APPROX_ZERO else p.y⟩)
    ∧ (∃ all, create_approximations ln (input.map substPoint) = some all
        ∧ all[i]? = some m)
    ∧ records = compute_deviation (input.map substPoint) (m.compute ln exp powf)
    ∧ ∀ j : ℕ, records[j]? = (input[j]?).map fun p =>
        (substPoint p, m.compute ln exp powf (substPoint p).x,
         m.compute ln exp powf (substPoint p).x - (substPoint p).y) := by
  cases hca : create_approximations ln (input.map substPoint) with
  | none => simp [start, hca] at h
  | some all =>
    simp only [start, hca, Option.bind_eq_bind, Option.some_bind] at h
    rw [Option.bind_eq_some] at h
    obtain ⟨best, hmb, h⟩ := h
    rw [Option.bind_eq_some] at h
    obtain ⟨rec, hrec, h⟩ := h
    simp only [Option.pure_def, Option.some.injEq, Prod.mk.injEq] at h
    obtain ⟨hi, hs, hm, hrecords⟩ := h
    obtain ⟨i0, hget, hmin, hfirst⟩ :=
      min_by_eq_some (fun e : ℕ × TNumber × FittedModel => e.2.1) _ best hmb
    rw [List.getElem?_enum] at hget
    rw [Option.map_eq_some'] at hget
    obtain ⟨pr, hz, hpr⟩ := hget
    rw [List.getElem?_zip_eq_some] at hz
    obtain ⟨hsds, hall⟩ := hz
    have hbest1 : best.1 = i0 := by rw [← hpr]
    have hbest22 : best.2.2 = pr.2 := by rw [← hpr]
    rw [List.getElem?_map] at hrec
    rw [hbest1, hall] at hrec
    simp only [Option.map_some', Option.some.injEq] at hrec
    have hrecm : rec = compute_deviation (input.map substPoint) (m.compute ln exp powf) := by
      rw [← hrec, ← hm, hbest22]
    refine ⟨fun p => rfl, ⟨all, rfl, ?_⟩, ?_, ?_⟩
    · rw [← hi, hbest1, hall, ← hm, hbest22]
    · rw [← hrecords, hrecm]
    · intro j
      rw [← hrecords, hrecm]
      simp [compute_deviation, Option.map_map, Function.comp_def]

/-- Witness for C5 at the points (1,1), (2,4), (3,9), (4,16) with the abstract
f64 functions instantiated by identities: the run selects the Quadratic model
with score 0 and its residual records. -/
theorem zero_substitution_canonical_once_witness :
    start id id id (fun x _ => x) [Point.mk 1 1, Point.mk 2 4, Point.mk 3 9, Point.mk 4 16]
      = some (1, 0, FittedModel.quadratic 0 0 1,
          [(Point.mk 1 1, 1, 0), (Point.mk 2 4, 4, 0),
           (Point.mk 3 9, 9, 0), (Point.mk 4 16, 16, 0)])
    ∧ ((∀ p : Point, substPoint p
        = ⟨if p.x = 0 then APPROX_ZERO else p.x, if p.y = 0 then APPROX_ZERO else p.y⟩)
    ∧ (∃ all, create_approximations id
          ([Point.mk 1 1, Point.mk 2 4, Point.mk 3 9, Point.mk 4 16].map substPoint)
          = some all ∧ all[1]? = some (FittedModel.quadratic 0 0 1))
    ∧ [(Point.mk 1 1, 1, 0), (Point.mk 2 4, 4, 0),
        (Point.mk 3 9, 9, 0), (Point.mk 4 16, 16, 0)]
        = compute_deviation
            ([Point.mk 1 1, Point.mk 2 4, Point.mk 3 9, Point.mk 4 16].map substPoint)
            ((FittedModel.quadratic 0 0 1).compute id id (fun x _ => x))
    ∧ ∀ j : ℕ,
        ([(Point.mk 1 1, 1, 0), (Point.mk 2 4, 4, 0),
          (Point.mk 3 9, 9, 0), (Point.mk 4 16, 16, 0)]
            : List (Point × TNumber × TNumber))[j]?
          = (([Point.mk 1 1, Point.mk 2 4, Point.mk 3 9, Point.mk 4 16]
              : List Point)[j]?).map fun p =>
            (substPoint p, (FittedModel.quadratic 0 0 1).compute id id (fun x _ => x)
                (substPoint p).x,
             (FittedModel.quadratic 0 0 1).compute id id (fun x _ => x) (substPoint p).x
               - (substPoint p).y)) := by
  have hs : start id id id (fun x _ => x)
      [Point.mk 1 1, Point.mk 2 4, Point.mk 3 9, Point.mk 4 16]
      = some (1, 0, FittedModel.quadratic 0 0 1,
          [(Point.mk 1 1, 1, 0), (Point.mk 2 4, 4, 0),
           (Point.mk 3 9, 9, 0), (Point.mk 4 16, 16, 0)]) := by
    norm_num [start, substPoint, create_approximations, Linear.new_minimized, linearSums,
      Quadratic.new_minimized, quadSystem, Mat3.solve, Mat3.det, det3x3,
      Cubic.new_minimized, cubicSystem, Mat4.solve, Mat4.det, Mat4.withCol,
      Exponent.new_minimized, Logrithm.new_minimized, Power.new_minimized,
      compute_deviation, FittedModel.compute, min_by, List.enum, List.enumFrom,
      compare_gt_iff_gt]
  exact ⟨hs, zero_substitution_canonical_once id id id (fun x _ => x)
    [Point.mk 1 1, Point.mk 2 4, Point.mk 3 9, Point.mk 4 16] 1 0
    (FittedModel.quadratic 0 0 1)
    [(Point.mk 1 1, 1, 0), (Point.mk 2 4, 4, 0), (Point.mk 3 9, 9, 0), (Point.mk 4 16, 16, 0)]
    hs⟩

end CompMathLab4
